import Mathlib

/-!
Verification of the ALIS control-software specification against a shallow
embedding of the repository's Python sources.

Conventions of the embedding:
* Python floats are modelled as exact rationals (`ℚ`): the source performs
  only field arithmetic on values that the spec reasons about exactly.
* OPC-UA / socket I/O is modelled by explicit inputs: a hardware write is an
  attempt `(value, succeeded)`; a read is an `Option` value (`none` = error).
* GUI dialogs are modelled by explicit boolean inputs (operator confirmed
  or declined).
* Each embedded function is a direct transcription of the correspondingly
  named Python method; comments cite the source file.
-/

/-! ## Ionizer current ramp (src/Ionizer_Ramp2.py) -/

namespace Ionizer

/-- Absolute current ceiling (A), `self.MAX_CURRENT` in `Ionizer_Ramp2.py`. -/
def MAX_CURRENT : ℚ := 23

/-- Maximum ramp slope (A/min), `self.MAX_RAMP_RATE`. -/
def MAX_RAMP_RATE : ℚ := 1

/-- The mutable control state of `IonizerCurrentControl` that the ramp logic
touches: `self.ramp_active`, `self.current_value` (last applied setpoint),
`self.target_current`, `self.ramp_step_size`, and the value stored in the
failsafe file. -/
structure RampSim where
  rampActive : Bool
  currentValue : ℚ
  targetCurrent : ℚ
  rampStepSize : ℚ
  failsafe : ℚ
deriving DecidableEq

/-- `IonizerCurrentControl.set_current` (lines 249-264): range-guard the value,
attempt the OPC-UA write; only on success assign `self.current_value` and
persist the failsafe file.  Returns (new state, returned bool, write attempts
made as `(value, succeeded)` pairs).  `hwOk` is the outcome the hardware gives
the single `node.set_value` call (an exception in Python maps to `false`). -/
def set_current (s : RampSim) (value : ℚ) (hwOk : Bool) :
    RampSim × Bool × List (ℚ × Bool) :=
  if ¬(0 ≤ value ∧ value ≤ MAX_CURRENT) then (s, false, [])
  else if hwOk then
    ({ s with currentValue := value, failsafe := value }, true, [(value, true)])
  else (s, false, [(value, false)])

/-- `IonizerCurrentControl.ramp_complete` (lines 338-345): deactivates the ramp
(and stops the timer) and reports success to the operator. -/
def ramp_complete (s : RampSim) : RampSim :=
  { s with rampActive := false }

/-- `IonizerCurrentControl.stop_ramp` (lines 347-354): deactivates the ramp if
it is active; the bool records whether the stop branch actually fired. -/
def stop_ramp (s : RampSim) : RampSim × Bool :=
  if s.rampActive then ({ s with rampActive := false }, true) else (s, false)

/-- Result of one timer tick of `update_ramp`: the new state, the hardware
write attempts made, whether `ramp_complete` (the success report) fired this
tick, and whether `stop_ramp` actually deactivated the ramp this tick. -/
structure TickResult where
  state : RampSim
  attempts : List (ℚ × Bool)
  completedReported : Bool
  stoppedFired : Bool
deriving DecidableEq

/-- Shared tail of `update_ramp` (lines 332-336): `set_current` has been
called; on success continue, on failure call `stop_ramp`. -/
def afterWrite (res : RampSim × Bool × List (ℚ × Bool)) (compl : Bool) :
    TickResult :=
  if res.2.1 then ⟨res.1, res.2.2, compl, false⟩
  else ⟨(stop_ramp res.1).1, res.2.2, compl, (stop_ramp res.1).2⟩

/-- `IonizerCurrentControl.update_ramp` (lines 319-336): one 100 ms timer tick.
Compute the candidate `current_value + ramp_step_size`; if it crosses the
target, snap to the target and call `ramp_complete` (note: the source calls
`ramp_complete` *before* the write); then `set_current` the value, and on a
failed write call `stop_ramp`. -/
def update_ramp (s : RampSim) (hwOk : Bool) : TickResult :=
  if ¬s.rampActive then ⟨s, [], false, false⟩
  else if (0 < s.rampStepSize ∧ s.targetCurrent ≤ s.currentValue + s.rampStepSize) ∨
          (s.rampStepSize < 0 ∧ s.currentValue + s.rampStepSize ≤ s.targetCurrent) then
    afterWrite (set_current (ramp_complete s) s.targetCurrent hwOk) true
  else
    afterWrite (set_current s (s.currentValue + s.rampStepSize) hwOk) false

/-- Python `int()` applied to a rational: truncation toward zero. -/
def pytrunc (q : ℚ) : ℤ :=
  if 0 ≤ q then ⌊q⌋ else ⌈q⌉

/-- The step count computed in `start_ramp` (lines 304-312):
`ramp_time = abs(delta) / ramp_rate * 60 * 1000`;
`ramp_steps = int(ramp_time / 100)`. -/
def ramp_steps_calc (delta rate : ℚ) : ℤ :=
  pytrunc (|delta| / rate * 60 * 1000 / 100)

/-- Outcome of `start_ramp`: pop-up rejection of an out-of-range target,
read failure, already-at-target, an uncaught `ZeroDivisionError`, or a
started ramp. -/
inductive StartOutcome where
  | configError
  | readError
  | alreadyAt
  | crash
  | started (s : RampSim)
deriving DecidableEq

/-- `IonizerCurrentControl.start_ramp` (lines 281-317).  `cv`/`fs` are the
current `self.current_value` / failsafe contents, `targetIn`/`rate` the two
spin-box values, `readVal` the result of `get_current()` (a fresh hardware
read, `none` on read error).  The source checks the target range, reads the
current, checks `delta == 0`, and otherwise computes
`ramp_steps`/`ramp_step_size` and starts the 100 ms timer.  A zero `rate`
raises `ZeroDivisionError` at `abs(delta)/ramp_rate`, and `ramp_steps = 0`
raises it at `delta/self.ramp_steps`; both are modelled as `.crash`.
No hardware write happens in any branch. -/
def start_ramp (cv fs targetIn rate : ℚ) (readVal : Option ℚ) : StartOutcome :=
  if ¬(0 ≤ targetIn ∧ targetIn ≤ MAX_CURRENT) then .configError
  else
    match readVal with
    | none => .readError
    | some current =>
      if targetIn - current = 0 then .alreadyAt
      else if rate = 0 then .crash
      else
        let steps := ramp_steps_calc (targetIn - current) rate
        if steps = 0 then .crash
        else .started ⟨true, cv, targetIn, (targetIn - current) / (steps : ℚ), fs⟩

/-- The successful writes among a list of attempts: the values actually
applied to the hardware channel. -/
def successWrites (ws : List (ℚ × Bool)) : List ℚ :=
  (ws.filter (·.2)).map (·.1)

/-- Result of running the ramp timer: final state, values successfully
written to the hardware channel in order, and whether the run ended through
`ramp_complete`. -/
structure RunResult where
  state : RampSim
  writes : List ℚ
  done : Bool
deriving DecidableEq

/-- Repeated ticking of `update_ramp` with every hardware write succeeding
(the claim scope "no hardware write failure"), until the ramp completes,
deactivates, or `fuel` ticks have elapsed. -/
def runRamp : RampSim → ℕ → RunResult
  | s, 0 => ⟨s, [], false⟩
  | s, fuel + 1 =>
    let r := update_ramp s true
    if r.completedReported then ⟨r.state, successWrites r.attempts, true⟩
    else if r.state.rampActive then
      let rr := runRamp r.state fuel
      ⟨rr.state, successWrites r.attempts ++ rr.writes, rr.done⟩
    else ⟨r.state, successWrites r.attempts, false⟩

/-- `IonizerCurrentControl.emergency_stop` (lines 356-364): on operator
confirmation, `stop_ramp` then `set_current(0.0)`.  Returns the new state and
the hardware write attempts. -/
def emergency_stop (s : RampSim) (confirm hwOk : Bool) :
    RampSim × List (ℚ × Bool) :=
  if confirm then
    let s1 := (stop_ramp s).1
    let r := set_current s1 0 hwOk
    (r.1, r.2.2)
  else (s, [])

end Ionizer

/-! ## Stepper-motor sequence worker (src/Sample_BLK_commented.py) -/

namespace Sequencer

/-- The trigger spec of a sequence step: `trigger_mode` / `trigger_value` in
`add_to_sequence` — either "Time (seconds)" or "File Count". -/
inductive TrigSpec where
  | timeMode (v : ℕ)
  | fileMode (v : ℕ)
deriving DecidableEq

/-- One entry of `position_sequence`: the target position and the trigger. -/
structure SeqStep where
  position : ℤ
  trig : TrigSpec
deriving DecidableEq

/-- The externally observed behaviour relevant to one step of
`SequenceWorker.run`: the controller responses to the `s r0xca` and `t 1`
commands (`none` models a socket error, which `send_command` turns into
`None`), the responses of the 1 Hz position polls, and the data-file counter
readings seen during a file-count dwell (first reading = the
`initial_count = self.get_data_count()` baseline at dwell entry). -/
structure StepEnv where
  ackSet : Option String
  ackGo : Option String
  posPolls : List (Option String)
  dwellPolls : List ℕ
deriving DecidableEq

/-- One abstract status event of the worker: `update_status.emit(...,
"Moving...")`, a dwell-progress emission for step `i`, or the terminal
`finished.emit(True)` / `finished.emit(False)` signal. -/
inductive Status where
  | moving (i : ℕ)
  | dwelling (i : ℕ)
  | complete
  | aborted
deriving DecidableEq

/-- Terminal outcome of the worker: `finished.emit(ok)`, or stuck forever in
a dwell loop whose counter never advances enough (modelled by exhausting the
observed poll list). -/
inductive Outcome where
  | finished (ok : Bool)
  | stuck
deriving DecidableEq

/-- The file-count dwell loop (lines 438-449 of `Sample_BLK_commented.py`):
with baseline `b` and threshold `v`, scan the successive counter readings;
a reading `c > b` emits a progress update, and the loop breaks when
`c - b ≥ v`.  Returns (number of progress emissions, index of the completing
poll if any). -/
def fileLoop (b v : ℕ) : List ℕ → ℕ × Option ℕ
  | [] => (0, none)
  | c :: rest =>
    if b < c then
      if v ≤ c - b then (1, some 0)
      else ((fileLoop b v rest).1 + 1, (fileLoop b v rest).2.map (· + 1))
    else ((fileLoop b v rest).1, (fileLoop b v rest).2.map (· + 1))

/-- The motion-wait loop (lines 411-418): poll `g r0x30` up to the ~20 s
timeout (at the 1 s cadence, at most 20 polls) and report whether some
response was `v <position>`.  The source's
`response.startswith("v ") and response[2:] == str(position)` is equivalent
to comparing the whole response with `"v " + str(position)`.  The source does
*not* branch on this result: after the loop it falls through to the
measurement phase either way. -/
def waitReached (pos : ℤ) (polls : List (Option String)) : Bool :=
  (polls.take 20).any fun r => r == some ("v " ++ toString pos)

/-- `SequenceWorker.run` (lines 382-457), for a run in which `stop()` is
never called (`self._running` stays true; the claims quantify over
uncancelled runs).  For each step: emit `Moving`, send `s r0xca`/`t 1`
(a non-`ok` response emits `finished(False)` and returns), wait for motion
(the result is unused, as in the source), then dwell by time (one emission
per remaining second) or by file count (one emission before the loop, then
`fileLoop`).  After the last step, emit `finished(True)`. -/
def runSeq : ℕ → List (SeqStep × StepEnv) → List Status × Outcome
  | _, [] => ([Status.complete], .finished true)
  | idx, (st, env) :: rest =>
    if env.ackSet ≠ some "ok" then ([Status.moving idx, Status.aborted], .finished false)
    else if env.ackGo ≠ some "ok" then ([Status.moving idx, Status.aborted], .finished false)
    else
      match st.trig with
      | .timeMode v =>
        let r := runSeq (idx + 1) rest
        (Status.moving idx :: (List.replicate v (Status.dwelling idx) ++ r.1), r.2)
      | .fileMode v =>
        match env.dwellPolls with
        | [] => ([Status.moving idx], .stuck)
        | b :: ps =>
          if (fileLoop b v ps).2.isSome then
            let r := runSeq (idx + 1) rest
            (Status.moving idx ::
              (List.replicate (1 + (fileLoop b v ps).1) (Status.dwelling idx) ++ r.1), r.2)
          else
            (Status.moving idx ::
              List.replicate (1 + (fileLoop b v ps).1) (Status.dwelling idx), .stuck)

/-- Collapse consecutive duplicate status emissions into state transitions. -/
def squash : List Status → List Status
  | [] => []
  | [a] => [a]
  | a :: b :: l => if a = b then squash (b :: l) else a :: squash (b :: l)

/-- `StepperMotorController.run_sequence` (lines 285-300): an empty
`position_sequence` is rejected with "No positions in sequence" before any
worker thread is started and before any command reaches the controller;
otherwise the worker is started on a copy of the list.  `false` = rejected. -/
def run_sequence (seq : List SeqStep) : Bool :=
  if seq.isEmpty then false else true

/-- A step/environment pair under which `SequenceWorker.run` neither fails nor
gets stuck: both command acknowledgements are `ok`, a time dwell lasts at
least one second (the UI spin box enforces a minimum of 1), and a file-count
dwell's observed counter readings eventually complete the gate. -/
def goodStep (p : SeqStep × StepEnv) : Bool :=
  (p.2.ackSet == some "ok") && (p.2.ackGo == some "ok") &&
    (match p.1.trig with
     | .timeMode v => decide (1 ≤ v)
     | .fileMode v =>
       match p.2.dwellPolls with
       | [] => false
       | b :: ps => (fileLoop b v ps).2.isSome)

end Sequencer

/-! ## Magnet auto current switching (src/Magnet_mit_Gaussmeter.py) -/

namespace Magnet

/-- The DeltaMagnetController state relevant to auto current switching:
`self.current_values` (frozen when auto mode starts), `self.active_current_index`,
and the live checked state of the `enable_current3` checkbox (read afresh by
`next_current` on every switch). -/
structure AutoState where
  values : List ℚ
  idx : ℕ
  checked : Bool
deriving DecidableEq

/-- The auto-mode entry branch of `toggle_auto_mode` (lines 647-682):
`current_values` is built from the three spin boxes and truncated to two
entries when the checkbox is unchecked; `active_current_index` starts at 0. -/
def startAuto (c1 c2 c3 : ℚ) (checked : Bool) : AutoState :=
  { values := if checked then [c1, c2, c3] else [c1, c2]
    idx := 0
    checked := checked }

/-- Events observable while auto mode runs: `check_data_count` reaching the
required count (which calls `next_current`), or the operator toggling the
`enable_current3` checkbox to state `b`. -/
inductive AutoEvent where
  | gateReached
  | setChecked (b : Bool)
deriving DecidableEq

/-- `DeltaMagnetController.next_current` (lines 720-730): advance the index
modulo 3 or 2 according to the *live* checkbox state. -/
def next_current (s : AutoState) : AutoState :=
  { s with idx := (s.idx + 1) % (if s.checked then 3 else 2) }

/-- One event step while auto mode is active. -/
def stepAuto (s : AutoState) (e : AutoEvent) : AutoState :=
  match e with
  | .gateReached => next_current s
  | .setChecked b => { s with checked := b }

/-- A run of auto mode: fold the events over the state. -/
def runAuto (s : AutoState) (events : List AutoEvent) : AutoState :=
  events.foldl stepAuto s

/-- `DeltaMagnetController.apply_auto_current` (lines 732-741):
`current = self.current_values[self.active_current_index]`; `none` models the
`IndexError` Python raises when the index is out of range. -/
def apply_auto_current (s : AutoState) : Option ℚ :=
  s.values[s.idx]?

end Magnet

/-! ## Ion-source maintenance guarded actions (src/Source_Maintainance_Commented.py) -/

namespace Maintenance

/-- `IonizerMaintenanceControl.set_node_state` (lines 365-393), abstracted
over the I/O outcomes: `connected` is whether `self.client` is present,
`connectOk` whether a fresh `connect_opc()` would succeed, `writeOk` whether
the `node.set_value` call succeeds.  Returns (client present afterwards,
returned bool, write attempts issued as `(node, value)` pairs). -/
def set_node_state (connected connectOk writeOk : Bool) (node : String)
    (value : Bool) : Bool × Bool × List (String × Bool) :=
  if connected || connectOk then
    if writeOk then (true, true, [(node, value)])
    else (false, false, [(node, value)])
  else (false, false, [])

/-- `IonizerMaintenanceControl.confirm_start_venting` (lines 395-407): ask
the operator; only on Yes call `set_node_state('vent', True)`.  Returns
(client present afterwards, write attempts issued). -/
def confirm_start_venting (connected connectOk writeOk confirm : Bool) :
    Bool × List (String × Bool) :=
  if confirm then
    let r := set_node_state connected connectOk writeOk "vent" true
    (r.1, r.2.2)
  else (connected, [])

/-- `IonizerMaintenanceControl.confirm_open_pump_valve` (lines 409-421):
ask the operator; only on Yes call `set_node_state('pump_valve', True)`. -/
def confirm_open_pump_valve (connected connectOk writeOk confirm : Bool) :
    Bool × List (String × Bool) :=
  if confirm then
    let r := set_node_state connected connectOk writeOk "pump_valve" true
    (r.1, r.2.2)
  else (connected, [])

end Maintenance

/-! ## Theorems for the specification claims -/

/-- C2 (code bug in the source): on an ordinary (non-final) tick a failed
hardware write aborts the ramp with the stored setpoint and failsafe record
unchanged (first conjunct); but on the final (snap) tick the source calls
`ramp_complete` *before* the write, so a failed final write is reported as a
successful completion (`completedReported = true`), `stop_ramp` is a no-op
(`stoppedFired = false`), and no failure outcome is raised — contradicting
the claim and the code's own comment "abort ramp if write fails"
(second conjunct). -/
theorem c2_write_failure_tick_eval :
    Ionizer.update_ramp ⟨true, 5, 10, 1/10, 5⟩ false =
      ⟨⟨false, 5, 10, 1/10, 5⟩, [(51/10, false)], false, true⟩ ∧
    Ionizer.update_ramp ⟨true, 199/20, 10, 1/10, 199/20⟩ false =
      ⟨⟨false, 199/20, 10, 1/10, 199/20⟩, [(10, false)], true, false⟩ := by
  constructor <;>
    norm_num [Ionizer.update_ramp, Ionizer.afterWrite, Ionizer.set_current,
      Ionizer.ramp_complete, Ionizer.stop_ramp, Ionizer.MAX_CURRENT]

/-- C5 counterexample: a non-positive ramp rate is *not* rejected as a
configuration error by `start_ramp`: with rate `-1` (target 5, current 0) the
ramp simply starts, with a wrong-sign step size; with rate `0` the code
raises an uncaught `ZeroDivisionError`.  Neither outcome is `configError`. -/
theorem c5_counterexample :
    Ionizer.start_ramp 0 0 5 (-1) (some 0) =
      .started ⟨true, 0, 5, -1/600, 0⟩ ∧
    Ionizer.start_ramp 0 0 5 0 (some 0) = .crash := by
  constructor
  · have hc : ⌈(-3000:ℚ)⌉ = -3000 := by
      rw [show ((-3000:ℚ)) = ((-3000 : ℤ) : ℚ) by norm_num, Int.ceil_intCast]
    have ha : |(5:ℚ)| = 5 := abs_of_nonneg (by norm_num)
    norm_num [Ionizer.start_ramp, Ionizer.ramp_steps_calc, Ionizer.pytrunc,
      Ionizer.MAX_CURRENT, ha, hc]
  · norm_num [Ionizer.start_ramp, Ionizer.MAX_CURRENT]

/-- C5 (amended): an out-of-range ramp target is rejected synchronously as a
configuration error and an empty sequence list is rejected before the worker
starts; neither path performs a hardware write.  A non-positive ramp rate,
however, is not validated by `start_ramp` (the UI spin box's `[0.01, 1.0]`
range is the only guard): a zero rate raises `ZeroDivisionError` instead of
being rejected as a configuration error. -/
theorem c5_validation :
    (∀ cv fs t r rd, ¬(0 ≤ t ∧ t ≤ Ionizer.MAX_CURRENT) →
        Ionizer.start_ramp cv fs t r rd = .configError) ∧
    Sequencer.run_sequence [] = false ∧
    (∀ cv fs t c, 0 ≤ t → t ≤ Ionizer.MAX_CURRENT → t - c ≠ 0 →
        Ionizer.start_ramp cv fs t 0 (some c) = .crash) := by
  refine ⟨fun cv fs t r rd h => ?_, rfl, fun cv fs t c h1 h2 h3 => ?_⟩
  · simp only [Ionizer.start_ramp, if_pos h]
  · simp [Ionizer.start_ramp, h1, h2, h3]

/-- Witness for C5 (amended) at concrete inputs: target 24 A is rejected,
the empty sequence is rejected, and rate 0 with target 5 A crashes. -/
theorem c5_validation_witness :
    Ionizer.start_ramp 0 0 24 1 (some 0) = .configError ∧
    Sequencer.run_sequence [] = false ∧
    Ionizer.start_ramp 0 0 5 0 (some 0) = .crash :=
  ⟨c5_validation.1 0 0 24 1 (some 0)
      (by norm_num [Ionizer.MAX_CURRENT]),
   c5_validation.2.1,
   c5_validation.2.2 0 0 5 0 (by norm_num)
      (by norm_num [Ionizer.MAX_CURRENT]) (by norm_num)⟩

/-- C6: when the operator confirms the emergency stop and the hardware write
succeeds, any in-flight ramp is cancelled (`rampActive = false`), exactly one
immediate write of 0 A is issued (no rate-limited ramp is involved), the
stored setpoint becomes 0, and the failsafe record is persisted as 0. -/
theorem c6_emergency_stop (s : Ionizer.RampSim) :
    (Ionizer.emergency_stop s true true).1.rampActive = false ∧
    (Ionizer.emergency_stop s true true).1.currentValue = 0 ∧
    (Ionizer.emergency_stop s true true).1.failsafe = 0 ∧
    (Ionizer.emergency_stop s true true).2 = [(0, true)] := by
  cases hs : s.rampActive <;>
    simp [Ionizer.emergency_stop, Ionizer.stop_ramp, Ionizer.set_current,
      Ionizer.MAX_CURRENT, hs]

/-- C8: with a live OPC connection, the venting / pump-valve hardware write is
issued iff the operator confirms the dialog; a declined confirmation issues
no write and leaves the client state unchanged (a normal return, not an
error path). -/
theorem c8_guarded_actions :
    ∀ connectOk writeOk confirm : Bool,
      ((Maintenance.confirm_start_venting true connectOk writeOk confirm).2 ≠ [] ↔
        confirm = true) ∧
      (confirm = false →
        Maintenance.confirm_start_venting true connectOk writeOk confirm = (true, [])) ∧
      ((Maintenance.confirm_open_pump_valve true connectOk writeOk confirm).2 ≠ [] ↔
        confirm = true) ∧
      (confirm = false →
        Maintenance.confirm_open_pump_valve true connectOk writeOk confirm = (true, [])) := by
  decide

/-- Witness for C8: the operator declines, and no write is issued. -/
theorem c8_guarded_actions_witness :
    Maintenance.confirm_start_venting true true true false = (true, []) ∧
    Maintenance.confirm_open_pump_valve true true true false = (true, []) :=
  ⟨(c8_guarded_actions true true false).2.1 rfl,
   (c8_guarded_actions true true false).2.2.2 rfl⟩

/-- C9 counterexample: with target 5 A, freshly read current 5.0005 A (the
hardware read is not quantized to the spin box's 0.01 A grid) and the maximal
permitted rate 1.0 A/min, every hypothesis of the claim holds, yet
`int(|target - current| / rate * 60 * 1000 / 100)` is 0, so
`delta / ramp_steps` would raise `ZeroDivisionError`. -/
theorem c9_counterexample :
    (0:ℚ) ≤ 5 ∧ (5:ℚ) ≤ Ionizer.MAX_CURRENT ∧ (5:ℚ) ≠ 10001/2000 ∧
    (1:ℚ)/100 ≤ 1 ∧ (1:ℚ) ≤ 1 ∧
    Ionizer.ramp_steps_calc (5 - 10001/2000) 1 = 0 := by
  have ha : |(1:ℚ)/2000| = 1/2000 := abs_of_nonneg (by norm_num)
  refine ⟨by norm_num, by norm_num [Ionizer.MAX_CURRENT], by norm_num,
    by norm_num, le_refl 1, ?_⟩
  norm_num [Ionizer.ramp_steps_calc, Ionizer.pytrunc, ha]

/-- C9 (amended): the computed step count is at least 1 — so the step-size
division is safe — provided `rate ≤ 600 * |target - current|`, i.e. when the
distance to the target is at least `rate/600` (one tick's worth of change;
with rates in `[0.01, 1.0]` any `|delta| ≥ 1/600` suffices, in particular any
delta on the 0.01 A input grid).  Smaller nonzero deltas make the truncated
step count 0, as the counterexample shows. -/
theorem c9_step_count_positive (t c rate : ℚ) (hr : 0 < rate)
    (h : rate ≤ 600 * |t - c|) : 1 ≤ Ionizer.ramp_steps_calc (t - c) rate := by
  have hx : (1:ℚ) ≤ |t - c| / rate * 60 * 1000 / 100 := by
    rw [show |t - c| / rate * 60 * 1000 / 100 = 600 * |t - c| / rate by ring]
    exact (one_le_div hr).mpr h
  unfold Ionizer.ramp_steps_calc Ionizer.pytrunc
  rw [if_pos (le_trans zero_le_one hx)]
  exact Int.le_floor.mpr (by exact_mod_cast hx)

/-- Witness for C9 (amended): target 5 A, current 4 A, rate 1 A/min gives a
positive step count. -/
theorem c9_step_count_positive_witness :
    (0:ℚ) < 1 ∧ (1:ℚ) ≤ 600 * |(5:ℚ) - 4| ∧
    1 ≤ Ionizer.ramp_steps_calc ((5:ℚ) - 4) 1 :=
  ⟨by norm_num, by rw [show ((5:ℚ) - 4) = 1 by norm_num, abs_one]; norm_num,
   c9_step_count_positive 5 4 1 (by norm_num)
     (by rw [show ((5:ℚ) - 4) = 1 by norm_num, abs_one]; norm_num)⟩

/-- C10 counterexample: start auto switching with the 'enable current 3'
checkbox unchecked (so `current_values` has two entries), check the box while
auto mode runs, and let the data-count gate fire twice: `next_current` then
computes `(1 + 1) % 3 = 2`, an index out of range for the two stored values,
and `apply_auto_current` fails (`IndexError` in Python). -/
theorem c10_counterexample :
    ¬((Magnet.runAuto (Magnet.startAuto 1 2 3 false)
        [.setChecked true, .gateReached, .gateReached]).idx <
      (Magnet.runAuto (Magnet.startAuto 1 2 3 false)
        [.setChecked true, .gateReached, .gateReached]).values.length) ∧
    Magnet.apply_auto_current (Magnet.runAuto (Magnet.startAuto 1 2 3 false)
        [.setChecked true, .gateReached, .gateReached]) = none := by
  constructor <;>
    simp [Magnet.runAuto, Magnet.startAuto, Magnet.stepAuto,
      Magnet.next_current, Magnet.apply_auto_current]

/-- Helper: one event unfolds the auto-mode run by one step. -/
theorem runAuto_cons (s : Magnet.AutoState) (e : Magnet.AutoEvent)
    (es : List Magnet.AutoEvent) :
    Magnet.runAuto s (e :: es) = Magnet.runAuto (Magnet.stepAuto s e) es := rfl

/-- Helper: auto-mode events never change the frozen `current_values` list. -/
theorem runAuto_values_const (events : List Magnet.AutoEvent) :
    ∀ s : Magnet.AutoState, (Magnet.runAuto s events).values = s.values := by
  induction events with
  | nil => intro s; rfl
  | cons e es ih =>
    intro s
    rw [runAuto_cons, ih]
    cases e <;> rfl

/-- Helper: whatever the events do, the index stays below 3, since
`next_current` reduces modulo 2 or 3. -/
theorem runAuto_idx_lt_three (events : List Magnet.AutoEvent) :
    ∀ s : Magnet.AutoState, s.idx < 3 → (Magnet.runAuto s events).idx < 3 := by
  induction events with
  | nil => intro s h; exact h
  | cons e es ih =>
    intro s h
    rw [runAuto_cons]
    cases e with
    | gateReached =>
      apply ih
      show (s.idx + 1) % (if s.checked then 3 else 2) < 3
      cases hc : s.checked
      · simp [hc]
        omega
      · simp [hc]
        omega
    | setChecked b => exact ih _ h

/-- Helper: if the checkbox starts unchecked and no event checks it, it stays
unchecked and the index stays below 2. -/
theorem runAuto_unchecked (events : List Magnet.AutoEvent) :
    ∀ s : Magnet.AutoState, s.checked = false → s.idx < 2 →
      (∀ e ∈ events, e ≠ Magnet.AutoEvent.setChecked true) →
      (Magnet.runAuto s events).checked = false ∧
        (Magnet.runAuto s events).idx < 2 := by
  induction events with
  | nil => intro s hc hi _; exact ⟨hc, hi⟩
  | cons e es ih =>
    intro s hc hi he
    have hes := fun e' h' => he e' (List.mem_cons_of_mem _ h')
    rw [runAuto_cons]
    cases e with
    | gateReached =>
      refine ih _ hc ?_ hes
      show (s.idx + 1) % (if s.checked then 3 else 2) < 2
      simp [hc]
      omega
    | setChecked b =>
      have hb : b = false := by
        rcases b with _ | _
        · rfl
        · exact absurd rfl (he _ (List.mem_cons_self _ _))
      subst hb
      exact ih _ rfl hi hes

/-- C10 (amended): `active_current_index` is a valid index into
`current_values` for every sequence of polls and UI events, provided either
auto mode was started with current 3 enabled, or the checkbox is never
checked during the run.  (Checking it mid-run after starting with two stored
currents violates the invariant, as the counterexample shows; unchecking it
mid-run is harmless.) -/
theorem c10_index_invariant (c1 c2 c3 : ℚ) (checked0 : Bool)
    (events : List Magnet.AutoEvent)
    (h : checked0 = true ∨ ∀ e ∈ events, e ≠ Magnet.AutoEvent.setChecked true) :
    (Magnet.runAuto (Magnet.startAuto c1 c2 c3 checked0) events).idx <
      (Magnet.runAuto (Magnet.startAuto c1 c2 c3 checked0) events).values.length := by
  rw [runAuto_values_const]
  rcases h with h | h
  · subst h
    have : (Magnet.startAuto c1 c2 c3 true).values.length = 3 := by
      simp [Magnet.startAuto]
    rw [this]
    exact runAuto_idx_lt_three events _ (by simp [Magnet.startAuto])
  · rcases checked0 with _ | _
    · have : (Magnet.startAuto c1 c2 c3 false).values.length = 2 := by
        simp [Magnet.startAuto]
      rw [this]
      exact (runAuto_unchecked events _ (by simp [Magnet.startAuto])
        (by simp [Magnet.startAuto]) h).2
    · have : (Magnet.startAuto c1 c2 c3 true).values.length = 3 := by
        simp [Magnet.startAuto]
      rw [this]
      exact runAuto_idx_lt_three events _ (by simp [Magnet.startAuto])

/-- Witness for C10 (amended): started with current 3 enabled, one gate
firing keeps the index valid. -/
theorem c10_index_invariant_witness :
    (Magnet.runAuto (Magnet.startAuto 1 2 3 true) [.gateReached]).idx <
      (Magnet.runAuto (Magnet.startAuto 1 2 3 true) [.gateReached]).values.length :=
  c10_index_invariant 1 2 3 true [.gateReached] (Or.inl rfl)

/-- C4 counterexample: one step with both acknowledgements `ok` whose
position polls never report the target (20 polls — the full ~20 s timeout
window — all reply `v 99` for target 100): the worker does *not* abort; it
falls through to the dwell, emits dwell progress, and finishes successfully.
A position-wait timeout is not treated as a failure by the source. -/
theorem c4_counterexample :
    Sequencer.waitReached 100 (List.replicate 20 (some "v 99")) = false ∧
    Sequencer.runSeq 0 [(⟨100, .fileMode 2⟩, ⟨some "ok", some "ok",
        List.replicate 20 (some "v 99"), [0, 5]⟩)] =
      ([.moving 0, .dwelling 0, .dwelling 0, .complete], .finished true) := by
  decide

/-- C4 (amended): a non-`ok` acknowledgement to either the position-set or
the start-move command makes the worker emit `finished(False)` immediately:
the run is aborted, no dwell of the failing step (and no later step) is
executed.  A position-poll timeout, by contrast, does not abort (see the
counterexample). -/
theorem c4_ack_failure_aborts (idx : ℕ) (st : Sequencer.SeqStep)
    (env : Sequencer.StepEnv) (rest : List (Sequencer.SeqStep × Sequencer.StepEnv))
    (h : env.ackSet ≠ some "ok" ∨ env.ackGo ≠ some "ok") :
    Sequencer.runSeq idx ((st, env) :: rest) =
      ([.moving idx, .aborted], .finished false) := by
  by_cases h1 : env.ackSet = some "ok"
  · rcases h with h | h
    · exact absurd h1 h
    · simp [Sequencer.runSeq, h1, h]
  · simp [Sequencer.runSeq, h1]

/-- Witness for C4 (amended): a step whose `s r0xca` command is answered with
an error aborts the run. -/
theorem c4_ack_failure_aborts_witness :
    Sequencer.runSeq 0 [(⟨100, Sequencer.TrigSpec.timeMode 5⟩,
        ⟨some "error", some "ok", [], []⟩)] =
      ([.moving 0, .aborted], .finished false) :=
  c4_ack_failure_aborts 0 ⟨100, Sequencer.TrigSpec.timeMode 5⟩
    ⟨some "error", some "ok", [], []⟩ [] (Or.inl (by decide))

/-- Helper: characterization of the completion index of the file-count dwell
loop, by induction over the list of observed counter readings. -/
theorem fileLoop_complete_iff (b v : ℕ) (hv : 1 ≤ v) :
    ∀ (polls : List ℕ) (i : ℕ),
      (Sequencer.fileLoop b v polls).2 = some i ↔
        i < polls.length ∧ b + v ≤ polls.getD i 0 ∧
          ∀ j < i, polls.getD j 0 < b + v := by
  intro polls
  induction polls with
  | nil =>
    intro i
    simp [Sequencer.fileLoop]
  | cons c rest ih =>
    intro i
    by_cases h1 : b + v ≤ c
    · have hb : b < c := by omega
      have h2 : v ≤ c - b := by omega
      rw [show (Sequencer.fileLoop b v (c :: rest)).2 = some 0 by
        simp [Sequencer.fileLoop, hb, h2]]
      cases i with
      | zero =>
        simp only [Option.some.injEq, List.getD_cons_zero, List.length_cons]
        constructor
        · intro _
          exact ⟨by omega, h1, by omega⟩
        · intro _
          trivial
      | succ i' =>
        constructor
        · intro hcontra
          exact absurd (Option.some.inj hcontra) (by omega)
        · rintro ⟨_, _, hall⟩
          have := hall 0 (by omega)
          rw [List.getD_cons_zero] at this
          omega
    · have hmap : (Sequencer.fileLoop b v (c :: rest)).2 =
          (Sequencer.fileLoop b v rest).2.map (· + 1) := by
        by_cases hb : b < c
        · have h2 : ¬ v ≤ c - b := by omega
          simp [Sequencer.fileLoop, hb, h2]
        · simp [Sequencer.fileLoop, hb]
      rw [hmap]
      cases i with
      | zero =>
        constructor
        · intro h
          rcases Option.map_eq_some'.mp h with ⟨a, _, ha⟩
          omega
        · rintro ⟨_, h2, _⟩
          rw [List.getD_cons_zero] at h2
          omega
      | succ i' =>
        have hstep : ((Sequencer.fileLoop b v rest).2.map (· + 1) = some (i' + 1)) ↔
            (Sequencer.fileLoop b v rest).2 = some i' := by
          constructor
          · intro h
            rcases Option.map_eq_some'.mp h with ⟨a, ha, hae⟩
            have : a = i' := by omega
            subst this
            exact ha
          · intro h
            rw [h]
            rfl
        rw [hstep, ih i']
        simp only [List.length_cons, List.getD_cons_succ]
        constructor
        · rintro ⟨hlen, hge, hall⟩
          refine ⟨by omega, hge, ?_⟩
          intro j hj
          cases j with
          | zero =>
            rw [List.getD_cons_zero]
            omega
          | succ j' =>
            rw [List.getD_cons_succ]
            exact hall j' (by omega)
        · rintro ⟨hlen, hge, hall⟩
          refine ⟨by omega, hge, ?_⟩
          intro j hj
          have := hall (j + 1) (by omega)
          rwa [List.getD_cons_succ] at this

/-- C3: in event-count (file-count) dwell mode with a monotone non-decreasing
counter — the baseline `b` is the reading captured freshly at this dwell's
entry (`initial_count = self.get_data_count()`), never carried over from a
previous step — the gate completes at poll `i` if and only if the cumulative
increase of the counter since the baseline has reached the threshold at poll
`i` and at no earlier poll; in particular it never completes early. -/
theorem c3_event_gate (b v : ℕ) (polls : List ℕ) (i : ℕ) (hv : 1 ≤ v)
    (_hmono : List.Chain' (· ≤ ·) (b :: polls)) :
    (Sequencer.fileLoop b v polls).2 = some i ↔
      i < polls.length ∧ b + v ≤ polls.getD i 0 ∧
        ∀ j < i, polls.getD j 0 < b + v :=
  fileLoop_complete_iff b v hv polls i

/-- Witness for C3: baseline 10, threshold 3, readings 10, 11, 14, 20 — the
gate completes exactly at the third poll (index 2), where the counter first
reaches 13. -/
theorem c3_event_gate_witness :
    (Sequencer.fileLoop 10 3 [10, 11, 14, 20]).2 = some 2 :=
  (c3_event_gate 10 3 [10, 11, 14, 20] 2 (by norm_num)
    (by norm_num [List.chain'_cons, List.chain'_singleton])).mpr (by decide)

/-- Helper: collapsing two equal consecutive emissions. -/
theorem squash_cons_cons_eq (a : Sequencer.Status) (l : List Sequencer.Status) :
    Sequencer.squash (a :: a :: l) = Sequencer.squash (a :: l) := by
  simp [Sequencer.squash]

/-- Helper: two distinct consecutive emissions are both transitions. -/
theorem squash_cons_cons_ne (a b : Sequencer.Status) (l : List Sequencer.Status)
    (hab : a ≠ b) :
    Sequencer.squash (a :: b :: l) = a :: Sequencer.squash (b :: l) := by
  simp [Sequencer.squash, hab]

/-- Helper: a nonempty block of equal emissions squashes to one transition. -/
theorem squash_replicate_append (a b : Sequencer.Status) (l : List Sequencer.Status)
    (hab : a ≠ b) :
    ∀ k, Sequencer.squash (List.replicate (k + 1) a ++ (b :: l)) =
      a :: Sequencer.squash (b :: l) := by
  intro k
  induction k with
  | zero =>
    rw [List.replicate_one, List.singleton_append]
    exact squash_cons_cons_ne a b l hab
  | succ k ih =>
    have h3 : List.replicate (k + 1) a ++ (b :: l) =
        a :: (List.replicate k a ++ (b :: l)) := by
      rw [List.replicate_succ, List.cons_append]
    have h2 : List.replicate (k + 1 + 1) a ++ (b :: l) =
        a :: (List.replicate (k + 1) a ++ (b :: l)) := by
      rw [List.replicate_succ, List.cons_append]
    rw [h2, h3, squash_cons_cons_eq, ← h3, ih]

/-- Helper: the worker's emission list is never empty, and its head is either
the terminal `complete` (empty step list) or the first step's `Moving`. -/
theorem runSeq_shape (idx : ℕ) (steps : List (Sequencer.SeqStep × Sequencer.StepEnv)) :
    ∃ c l, (Sequencer.runSeq idx steps).1 = c :: l ∧
      (c = Sequencer.Status.complete ∨ c = Sequencer.Status.moving idx) := by
  cases steps with
  | nil => exact ⟨.complete, [], rfl, Or.inl rfl⟩
  | cons p rest =>
    obtain ⟨st, env⟩ := p
    by_cases h1 : env.ackSet = some "ok"
    · by_cases h2 : env.ackGo = some "ok"
      · cases htr : st.trig with
        | timeMode v =>
          refine ⟨.moving idx,
            List.replicate v (Sequencer.Status.dwelling idx) ++
              (Sequencer.runSeq (idx + 1) rest).1, ?_, Or.inr rfl⟩
          simp [Sequencer.runSeq, h1, h2, htr]
        | fileMode v =>
          cases hdp : env.dwellPolls with
          | nil =>
            refine ⟨.moving idx, [], ?_, Or.inr rfl⟩
            simp [Sequencer.runSeq, h1, h2, htr, hdp]
          | cons b ps =>
            by_cases hfl : (Sequencer.fileLoop b v ps).2.isSome
            · refine ⟨.moving idx,
                List.replicate (1 + (Sequencer.fileLoop b v ps).1)
                    (Sequencer.Status.dwelling idx) ++
                  (Sequencer.runSeq (idx + 1) rest).1, ?_, Or.inr rfl⟩
              simp [Sequencer.runSeq, h1, h2, htr, hdp, hfl]
            · refine ⟨.moving idx,
                List.replicate (1 + (Sequencer.fileLoop b v ps).1)
                  (Sequencer.Status.dwelling idx), ?_, Or.inr rfl⟩
              simp [Sequencer.runSeq, h1, h2, htr, hdp, hfl]
      · refine ⟨.moving idx, [.aborted], ?_, Or.inr rfl⟩
        simp [Sequencer.runSeq, h1, h2]
    · refine ⟨.moving idx, [.aborted], ?_, Or.inr rfl⟩
      simp [Sequencer.runSeq, h1]

/-- Helper: general-start-index form of the sequencer ordering property:
under `goodStep` environments the squashed emission trace is exactly
`Moving, Dwelling` per step followed by `Complete`, and the worker reports
success. -/
theorem runSeq_trace_aux (steps : List (Sequencer.SeqStep × Sequencer.StepEnv)) :
    ∀ idx : ℕ, (∀ p ∈ steps, Sequencer.goodStep p = true) →
      Sequencer.squash (Sequencer.runSeq idx steps).1 =
        ((List.range' idx steps.length).bind
          fun i => [Sequencer.Status.moving i, Sequencer.Status.dwelling i]) ++
          [Sequencer.Status.complete] ∧
      (Sequencer.runSeq idx steps).2 = Sequencer.Outcome.finished true := by
  induction steps with
  | nil =>
    intro idx _
    constructor
    · simp [Sequencer.runSeq, Sequencer.squash, List.range']
    · rfl
  | cons p rest ih =>
    intro idx h
    obtain ⟨st, env⟩ := p
    have hp := h _ (List.mem_cons_self _ _)
    have hrest : ∀ q ∈ rest, Sequencer.goodStep q = true :=
      fun q hq => h q (List.mem_cons_of_mem _ hq)
    have ihr := ih (idx + 1) hrest
    obtain ⟨c, l, hcl, hc⟩ := runSeq_shape (idx + 1) rest
    have hmd : Sequencer.Status.moving idx ≠ Sequencer.Status.dwelling idx := by
      simp
    have hdc : Sequencer.Status.dwelling idx ≠ c := by
      rcases hc with rfl | rfl <;> simp
    cases htr : st.trig with
    | timeMode v =>
      simp only [Sequencer.goodStep, htr, Bool.and_eq_true, beq_iff_eq,
        decide_eq_true_eq] at hp
      obtain ⟨⟨hset, hgo⟩, hv⟩ := hp
      have h1 : ¬(env.ackSet ≠ some "ok") := not_not_intro hset
      have h2 : ¬(env.ackGo ≠ some "ok") := not_not_intro hgo
      have htrace : Sequencer.runSeq idx ((st, env) :: rest) =
          (Sequencer.Status.moving idx ::
            (List.replicate v (Sequencer.Status.dwelling idx) ++
              (Sequencer.runSeq (idx + 1) rest).1),
           (Sequencer.runSeq (idx + 1) rest).2) := by
        simp [Sequencer.runSeq, h1, h2, htr]
      rw [htrace]
      obtain ⟨v', rfl⟩ : ∃ v', v = v' + 1 := ⟨v - 1, by omega⟩
      constructor
      · show Sequencer.squash (Sequencer.Status.moving idx ::
            (List.replicate (v' + 1) (Sequencer.Status.dwelling idx) ++
              (Sequencer.runSeq (idx + 1) rest).1)) = _
        rw [hcl]
        rw [show List.replicate (v' + 1) (Sequencer.Status.dwelling idx) ++ (c :: l) =
              Sequencer.Status.dwelling idx ::
                (List.replicate v' (Sequencer.Status.dwelling idx) ++ (c :: l)) from by
          rw [List.replicate_succ, List.cons_append]]
        rw [squash_cons_cons_ne _ _ _ hmd]
        rw [show Sequencer.Status.dwelling idx ::
              (List.replicate v' (Sequencer.Status.dwelling idx) ++ (c :: l)) =
              List.replicate (v' + 1) (Sequencer.Status.dwelling idx) ++ (c :: l) from by
          rw [List.replicate_succ, List.cons_append]]
        rw [squash_replicate_append _ _ _ hdc v']
        rw [← hcl, ihr.1]
        simp [List.range', List.cons_bind]
      · exact ihr.2
    | fileMode v =>
      cases hdp : env.dwellPolls with
      | nil =>
        simp only [Sequencer.goodStep, htr, hdp, Bool.and_eq_true] at hp
        simp at hp
      | cons b ps =>
        simp only [Sequencer.goodStep, htr, hdp, Bool.and_eq_true, beq_iff_eq] at hp
        obtain ⟨⟨hset, hgo⟩, hfl⟩ := hp
        have h1 : ¬(env.ackSet ≠ some "ok") := not_not_intro hset
        have h2 : ¬(env.ackGo ≠ some "ok") := not_not_intro hgo
        have htrace : Sequencer.runSeq idx ((st, env) :: rest) =
            (Sequencer.Status.moving idx ::
              (List.replicate (1 + (Sequencer.fileLoop b v ps).1)
                  (Sequencer.Status.dwelling idx) ++
                (Sequencer.runSeq (idx + 1) rest).1),
             (Sequencer.runSeq (idx + 1) rest).2) := by
          simp [Sequencer.runSeq, h1, h2, htr, hdp, hfl]
        rw [htrace]
        constructor
        · show Sequencer.squash (Sequencer.Status.moving idx ::
              (List.replicate (1 + (Sequencer.fileLoop b v ps).1)
                  (Sequencer.Status.dwelling idx) ++
                (Sequencer.runSeq (idx + 1) rest).1)) = _
          rw [hcl]
          rw [show (1 + (Sequencer.fileLoop b v ps).1) =
                (Sequencer.fileLoop b v ps).1 + 1 from Nat.add_comm _ _]
          rw [show List.replicate ((Sequencer.fileLoop b v ps).1 + 1)
                  (Sequencer.Status.dwelling idx) ++ (c :: l) =
                Sequencer.Status.dwelling idx ::
                  (List.replicate (Sequencer.fileLoop b v ps).1
                    (Sequencer.Status.dwelling idx) ++ (c :: l)) from by
            rw [List.replicate_succ, List.cons_append]]
          rw [squash_cons_cons_ne _ _ _ hmd]
          rw [show Sequencer.Status.dwelling idx ::
                (List.replicate (Sequencer.fileLoop b v ps).1
                  (Sequencer.Status.dwelling idx) ++ (c :: l)) =
                List.replicate ((Sequencer.fileLoop b v ps).1 + 1)
                  (Sequencer.Status.dwelling idx) ++ (c :: l) from by
            rw [List.replicate_succ, List.cons_append]]
          rw [squash_replicate_append _ _ _ hdc]
          rw [← hcl, ihr.1]
          simp [List.range', List.cons_bind]
        · exact ihr.2

/-- C7: for every sequence run in which all move acknowledgements are `ok`,
every time dwell lasts at least one second, every file-count dwell completes,
and no cancellation occurs, the squashed status-transition trace is exactly
`Moving(0), Dwelling(0), …, Moving(n-1), Dwelling(n-1), Complete`, and the
`Complete` signal is only emitted after the last step's dwell (it is the
final element of the trace, after `Dwelling(n-1)`). -/
theorem c7_sequence_trace (steps : List (Sequencer.SeqStep × Sequencer.StepEnv))
    (h : ∀ p ∈ steps, Sequencer.goodStep p = true) :
    Sequencer.squash (Sequencer.runSeq 0 steps).1 =
      ((List.range steps.length).bind
        fun i => [Sequencer.Status.moving i, Sequencer.Status.dwelling i]) ++
        [Sequencer.Status.complete] ∧
    (Sequencer.runSeq 0 steps).2 = Sequencer.Outcome.finished true := by
  have haux := runSeq_trace_aux steps 0 h
  rwa [List.range_eq_range']

/-- Witness for C7: the spec's three-step scenario (two time dwells and one
file-count dwell) produces exactly the seven transitions. -/
theorem c7_sequence_trace_witness :
    Sequencer.squash (Sequencer.runSeq 0
        [(⟨100, .timeMode 2⟩, ⟨some "ok", some "ok", [], []⟩),
         (⟨200, .fileMode 1⟩, ⟨some "ok", some "ok", [], [3, 7]⟩),
         (⟨300, .timeMode 1⟩, ⟨some "ok", some "ok", [], []⟩)]).1 =
      [.moving 0, .dwelling 0, .moving 1, .dwelling 1, .moving 2, .dwelling 2,
        .complete] ∧
    (Sequencer.runSeq 0
        [(⟨100, .timeMode 2⟩, ⟨some "ok", some "ok", [], []⟩),
         (⟨200, .fileMode 1⟩, ⟨some "ok", some "ok", [], [3, 7]⟩),
         (⟨300, .timeMode 1⟩, ⟨some "ok", some "ok", [], []⟩)]).2 =
      Sequencer.Outcome.finished true := by
  have h := c7_sequence_trace
    [(⟨100, .timeMode 2⟩, ⟨some "ok", some "ok", [], []⟩),
     (⟨200, .fileMode 1⟩, ⟨some "ok", some "ok", [], [3, 7]⟩),
     (⟨300, .timeMode 1⟩, ⟨some "ok", some "ok", [], []⟩)] (by decide)
  refine ⟨?_, h.2⟩
  rw [h.1]
  decide

/-- Helper: interval invariant for the ramp run.  With the target in the
hard-limit range and every hardware write succeeding, all values written stay
in `[lo, hi]` whenever the interval contains both the starting stored
setpoint and the target, and a completed run's last write is exactly the
target. -/
theorem runRamp_writes_aux (t lo hi : ℚ) (h1 : 0 ≤ t)
    (h2 : t ≤ Ionizer.MAX_CURRENT) (hlot : lo ≤ t) (hthi : t ≤ hi) :
    ∀ (fuel : ℕ) (s : Ionizer.RampSim), s.targetCurrent = t →
      lo ≤ s.currentValue → s.currentValue ≤ hi →
      (∀ w ∈ (Ionizer.runRamp s fuel).writes, lo ≤ w ∧ w ≤ hi) ∧
      ((Ionizer.runRamp s fuel).done = true →
        (Ionizer.runRamp s fuel).writes.getLast? = some t) := by
  intro fuel
  induction fuel with
  | zero =>
    intro s _ _ _
    constructor
    · intro w hw
      simp [Ionizer.runRamp] at hw
    · intro hd
      simp [Ionizer.runRamp] at hd
  | succ n ih =>
    intro s hst hlo hhi
    cases hact : s.rampActive with
    | false =>
      have hr : Ionizer.update_ramp s true = ⟨s, [], false, false⟩ := by
        simp [Ionizer.update_ramp, hact]
      have hrun : Ionizer.runRamp s (n + 1) = ⟨s, [], false⟩ := by
        simp [Ionizer.runRamp, hr, hact, Ionizer.successWrites]
      rw [hrun]
      constructor
      · intro w hw
        simp at hw
      · intro hd
        simp at hd
    | true =>
      by_cases hsnap :
          (0 < s.rampStepSize ∧ s.targetCurrent ≤ s.currentValue + s.rampStepSize) ∨
          (s.rampStepSize < 0 ∧ s.currentValue + s.rampStepSize ≤ s.targetCurrent)
      · -- snap tick: `ramp_complete` then a successful write of the target
        have hrange : ¬¬(0 ≤ s.targetCurrent ∧ s.targetCurrent ≤ Ionizer.MAX_CURRENT) :=
          not_not_intro ⟨by rw [hst]; exact h1, by rw [hst]; exact h2⟩
        have hsc : Ionizer.set_current (Ionizer.ramp_complete s) s.targetCurrent true =
            (⟨false, s.targetCurrent, s.targetCurrent, s.rampStepSize, s.targetCurrent⟩,
              true, [(s.targetCurrent, true)]) := by
          unfold Ionizer.set_current Ionizer.ramp_complete
          rw [if_neg hrange]
          simp
        have hr : Ionizer.update_ramp s true =
            ⟨⟨false, s.targetCurrent, s.targetCurrent, s.rampStepSize, s.targetCurrent⟩,
              [(s.targetCurrent, true)], true, false⟩ := by
          simp [Ionizer.update_ramp, hact, hsnap, hsc, Ionizer.afterWrite]
        have hrun : Ionizer.runRamp s (n + 1) =
            ⟨⟨false, s.targetCurrent, s.targetCurrent, s.rampStepSize, s.targetCurrent⟩,
              [s.targetCurrent], true⟩ := by
          simp [Ionizer.runRamp, hr, Ionizer.successWrites]
        rw [hrun]
        constructor
        · intro w hw
          simp only [List.mem_singleton] at hw
          subst hw
          exact ⟨by rw [hst]; exact hlot, by rw [hst]; exact hthi⟩
        · intro _
          simp [hst]
      · -- ordinary tick
        obtain ⟨hA, hB⟩ := not_or.mp hsnap
        have hvbounds : lo ≤ s.currentValue + s.rampStepSize ∧
            s.currentValue + s.rampStepSize ≤ hi := by
          rcases lt_trichotomy s.rampStepSize 0 with hne | hze | hpo
          · have hnt : ¬(s.currentValue + s.rampStepSize ≤ s.targetCurrent) :=
              fun hcon => hB ⟨hne, hcon⟩
            push_neg at hnt
            rw [hst] at hnt
            constructor
            · linarith
            · linarith
          · rw [hze, add_zero]
            exact ⟨hlo, hhi⟩
          · have hnt : ¬(s.targetCurrent ≤ s.currentValue + s.rampStepSize) :=
              fun hcon => hA ⟨hpo, hcon⟩
            push_neg at hnt
            rw [hst] at hnt
            constructor
            · linarith
            · linarith
        by_cases hrange : 0 ≤ s.currentValue + s.rampStepSize ∧
            s.currentValue + s.rampStepSize ≤ Ionizer.MAX_CURRENT
        · -- successful ordinary write, ramp stays active
          have hsc : Ionizer.set_current s (s.currentValue + s.rampStepSize) true =
              (⟨s.rampActive, s.currentValue + s.rampStepSize, s.targetCurrent,
                  s.rampStepSize, s.currentValue + s.rampStepSize⟩, true,
                [(s.currentValue + s.rampStepSize, true)]) := by
            unfold Ionizer.set_current
            rw [if_neg (not_not_intro hrange)]
            simp
          have hr : Ionizer.update_ramp s true =
              ⟨⟨s.rampActive, s.currentValue + s.rampStepSize, s.targetCurrent,
                  s.rampStepSize, s.currentValue + s.rampStepSize⟩,
                [(s.currentValue + s.rampStepSize, true)], false, false⟩ := by
            simp [Ionizer.update_ramp, hact, hsnap, hsc, Ionizer.afterWrite]
          have hrun : Ionizer.runRamp s (n + 1) =
              ⟨(Ionizer.runRamp ⟨s.rampActive, s.currentValue + s.rampStepSize,
                  s.targetCurrent, s.rampStepSize,
                  s.currentValue + s.rampStepSize⟩ n).state,
                (s.currentValue + s.rampStepSize) ::
                  (Ionizer.runRamp ⟨s.rampActive, s.currentValue + s.rampStepSize,
                    s.targetCurrent, s.rampStepSize,
                    s.currentValue + s.rampStepSize⟩ n).writes,
                (Ionizer.runRamp ⟨s.rampActive, s.currentValue + s.rampStepSize,
                  s.targetCurrent, s.rampStepSize,
                  s.currentValue + s.rampStepSize⟩ n).done⟩ := by
            simp [Ionizer.runRamp, hr, hact, Ionizer.successWrites]
          have ihr := ih ⟨s.rampActive, s.currentValue + s.rampStepSize,
            s.targetCurrent, s.rampStepSize, s.currentValue + s.rampStepSize⟩
            hst hvbounds.1 hvbounds.2
          rw [hrun]
          constructor
          · intro w hw
            rcases List.mem_cons.mp hw with rfl | hw'
            · exact hvbounds
            · exact ihr.1 w hw'
          · intro hd
            have hlast := ihr.2 hd
            cases hwr : (Ionizer.runRamp ⟨s.rampActive,
                s.currentValue + s.rampStepSize, s.targetCurrent, s.rampStepSize,
                s.currentValue + s.rampStepSize⟩ n).writes with
            | nil =>
              rw [hwr] at hlast
              simp at hlast
            | cons a as =>
              rw [hwr] at hlast
              show ((s.currentValue + s.rampStepSize) :: a :: as).getLast? = some t
              rw [List.getLast?_cons_cons]
              exact hlast
        · -- write rejected by the range guard: the ramp stops, nothing written
          have hsc : Ionizer.set_current s (s.currentValue + s.rampStepSize) true =
              (s, false, []) := by
            unfold Ionizer.set_current
            rw [if_pos hrange]
          have hr : Ionizer.update_ramp s true =
              ⟨⟨false, s.currentValue, s.targetCurrent, s.rampStepSize, s.failsafe⟩,
                [], false, true⟩ := by
            simp [Ionizer.update_ramp, hact, hsnap, hsc, Ionizer.afterWrite,
              Ionizer.stop_ramp]
          have hrun : Ionizer.runRamp s (n + 1) =
              ⟨⟨false, s.currentValue, s.targetCurrent, s.rampStepSize, s.failsafe⟩,
                [], false⟩ := by
            simp [Ionizer.runRamp, hr, Ionizer.successWrites]
          rw [hrun]
          constructor
          · intro w hw
            simp at hw
          · intro hd
            simp at hd

/-- C1 (amended): for a ramp with an in-range target and all hardware writes
succeeding, every value written to the hardware channel lies within
`[min(initial, target), max(initial, target)]` where `initial` is the
*stored setpoint* `self.current_value` at ramp start — not the freshly read
current, which the tick loop never uses as its base — and if the run
completes, the final written value is exactly the target. -/
theorem c1_ramp_bounded_and_final (s : Ionizer.RampSim)
    (h1 : 0 ≤ s.targetCurrent) (h2 : s.targetCurrent ≤ Ionizer.MAX_CURRENT)
    (fuel : ℕ) :
    (∀ w ∈ (Ionizer.runRamp s fuel).writes,
        min s.currentValue s.targetCurrent ≤ w ∧
        w ≤ max s.currentValue s.targetCurrent) ∧
    ((Ionizer.runRamp s fuel).done = true →
      (Ionizer.runRamp s fuel).writes.getLast? = some s.targetCurrent) :=
  runRamp_writes_aux s.targetCurrent
    (min s.currentValue s.targetCurrent) (max s.currentValue s.targetCurrent)
    h1 h2 (min_le_right _ _) (le_max_right _ _) fuel s rfl
    (min_le_left _ _) (le_max_left _ _)

/-- Witness for C1 (amended): the ramp state produced by
`start_ramp` for target 5.01 A at rate 1 A/min from a fresh reading of
5 A with stored setpoint 4.99 A, run for 20 ticks. -/
theorem c1_ramp_bounded_and_final_witness :
    (0:ℚ) ≤ (501:ℚ)/100 ∧ (501:ℚ)/100 ≤ Ionizer.MAX_CURRENT ∧
    ((∀ w ∈ (Ionizer.runRamp ⟨true, 499/100, 501/100, 1/600, 499/100⟩ 20).writes,
        min ((499:ℚ)/100) ((501:ℚ)/100) ≤ w ∧
        w ≤ max ((499:ℚ)/100) ((501:ℚ)/100)) ∧
     ((Ionizer.runRamp ⟨true, 499/100, 501/100, 1/600, 499/100⟩ 20).done = true →
       (Ionizer.runRamp ⟨true, 499/100, 501/100, 1/600, 499/100⟩ 20).writes.getLast? =
         some (501/100))) :=
  ⟨by norm_num, by norm_num [Ionizer.MAX_CURRENT],
   c1_ramp_bounded_and_final ⟨true, 499/100, 501/100, 1/600, 499/100⟩
     (by norm_num) (by norm_num [Ionizer.MAX_CURRENT]) 20⟩

set_option maxHeartbeats 1000000 in
/-- C1 counterexample: `start_ramp` with stored setpoint 4.99 A, fresh
reading 5 A, target 5.01 A, rate 1 A/min starts a ramp whose very first tick
writes 2995/600 ≈ 4.9917 A — outside `[min(initial, target), max(initial,
target)] = [5, 5.01]` when `initial` is the freshly read current 5 A as the
claim states — even though the run completes (`done = true`).  The tick loop
bases its arithmetic on `self.current_value`, not on the fresh reading. -/
theorem c1_counterexample :
    Ionizer.start_ramp (499/100) (499/100) (501/100) 1 (some 5) =
      .started ⟨true, 499/100, 501/100, 1/600, 499/100⟩ ∧
    (Ionizer.runRamp ⟨true, 499/100, 501/100, 1/600, 499/100⟩ 20).done = true ∧
    (Ionizer.runRamp ⟨true, 499/100, 501/100, 1/600, 499/100⟩ 20).writes.head? =
      some (2995/600) ∧
    ¬(min (5:ℚ) (501/100) ≤ 2995/600) := by
  refine ⟨?_, ?_, ?_, ?_⟩
  · have ha : |(1:ℚ)/100| = 1/100 := abs_of_nonneg (by norm_num)
    norm_num [Ionizer.start_ramp, Ionizer.ramp_steps_calc, Ionizer.pytrunc,
      Ionizer.MAX_CURRENT, ha]
  · norm_num [Ionizer.runRamp, Ionizer.update_ramp, Ionizer.afterWrite,
      Ionizer.set_current, Ionizer.ramp_complete, Ionizer.stop_ramp,
      Ionizer.successWrites, Ionizer.MAX_CURRENT]
  · norm_num [Ionizer.runRamp, Ionizer.update_ramp, Ionizer.afterWrite,
      Ionizer.set_current, Ionizer.ramp_complete, Ionizer.stop_ramp,
      Ionizer.successWrites, Ionizer.MAX_CURRENT]
  · rw [min_def]
    norm_num
